import Mathlib

/-!
Verification development for the Thai title-layout engine of the
NCA-toolkit repository.  Python strings are embedded as `List Char`,
Python `int` as `Int`, and Python `float` values as `ℚ` (the float
computations appearing here are treated as exact rational arithmetic).
The Thai word tokenizer (`pythainlp.word_tokenize`) is an external
collaborator and is modelled as an explicit function parameter `tok`.
-/

namespace NcaTitle

/-- Embedding of a Python `str` as a list of characters. -/
abbrev Str := List Char

/-- `re.search(r'[฀-๿]', ...)` applied to a single character:
code point in the Thai block. -/
def isThaiChar (c : Char) : Bool :=
  decide (0x0E00 ≤ c.toNat) && decide (c.toNat ≤ 0x0E7F)

/-- `bool(re.search(r'[฀-๿]', s))`. -/
def containsThai (s : Str) : Bool := s.any isThaiChar

/-- ASCII whitespace, as stripped/split by Python `str.strip()` / `str.split()`. -/
def isPySpace (c : Char) : Bool :=
  c = ' ' || c = '\t' || c = '\n' || c = '\r' || c = '\x0b' || c = '\x0c'

/-- Python `s.strip()`. -/
def pyStrip (s : Str) : Str :=
  ((s.dropWhile isPySpace).reverse.dropWhile isPySpace).reverse

/-- Python `s.split(sep)` for a one-character separator: keeps empty parts. -/
def splitOnChar (sep : Char) : Str → List Str
  | [] => [[]]
  | c :: cs =>
    let rest := splitOnChar sep cs
    if c = sep then [] :: rest
    else (c :: rest.headD []) :: rest.tail

/-- Python `s.split(sep, 1)` when `sep in s`: the parts before and after the
first occurrence of `sep`. -/
def splitFirst (sep : Char) : Str → Str × Str
  | [] => ([], [])
  | c :: cs =>
    if c = sep then ([], cs)
    else
      let p := splitFirst sep cs
      (c :: p.1, p.2)

/-- Helper for `pySplitWs`: accumulates the current (reversed) word. -/
def wsSplitAux : Str → Str → List Str
  | cur, [] => if cur = [] then [] else [cur.reverse]
  | cur, c :: cs =>
    if isPySpace c then
      if cur = [] then wsSplitAux [] cs else cur.reverse :: wsSplitAux [] cs
    else wsSplitAux (c :: cur) cs

/-- Python `s.split()` (no separator): split on whitespace runs, dropping
empty parts. -/
def pySplitWs (s : Str) : List Str := wsSplitAux [] s

/-- The fixed punctuation set of `smart_split_thai_text`:
`[',', '.', ':', ';', '?', '!', ')', ']', '}', '"', "'"]`. -/
def punctSet : List Str :=
  [[','], ['.'], [':'], [';'], ['?'], ['!'], [')'], [']'], ['}'], ['"'], ['\'']]

/-- The punctuation-reattachment loop of `smart_split_thai_text`
(state: `processed_words` is the emitted output, `current` is
`current_word`). -/
def reattachAux (current : Str) : List Str → List Str
  | [] => if current = [] then [] else [current]
  | w :: ws =>
    if w ∈ punctSet then
      if current = [] then w :: reattachAux [] ws
      else reattachAux (current ++ w) ws
    else
      if current = [] then reattachAux w ws
      else current :: reattachAux w ws

/-- Punctuation reattachment over a token sequence (the
`processed_words` post-pass of `smart_split_thai_text`). -/
def processPunct (words : List Str) : List Str := reattachAux [] words

/-- The greedy line-packing loop of `smart_split_thai_text`.
`current` is `current_line`; the candidate line is
`current_line + ("" if not current_line else (" " if not is_thai else "")) + word`. -/
def greedyAux (maxChars : Int) (isthai : Bool) : Str → List Str → List Str
  | current, [] => if current = [] then [] else [current]
  | current, w :: ws =>
    if (((current ++ (if current = [] then [] else if isthai then [] else [' ']) ++ w).length : Int)) ≤ maxChars then
      greedyAux maxChars isthai
        (current ++ (if current = [] then [] else if isthai then [] else [' ']) ++ w) ws
    else if current = [] then greedyAux maxChars isthai w ws
    else current :: greedyAux maxChars isthai w ws

/-- The word-source and greedy-pack part of `smart_split_thai_text`:
Thai text is tokenized by the external segmenter and punctuation is
reattached; non-Thai text is split on whitespace. -/
def packCore (tok : Str → List Str) (text : Str) (maxChars : Int) : List Str :=
  let isthai := containsThai text
  let words := if isthai then processPunct (tok text) else pySplitWs text
  greedyAux maxChars isthai [] words

lemma length_splitFirst_snd {sep : Char} : ∀ {s : Str}, sep ∈ s →
    (splitFirst sep s).2.length < s.length := by
  intro s h
  induction s with
  | nil => cases h
  | cons c cs ih =>
    by_cases hc : c = sep
    · simp [splitFirst, hc]
    · have hmem : sep ∈ cs := by
        rcases List.mem_cons.mp h with h1 | h1
        · exact absurd h1.symm hc
        · exact h1
      simp only [splitFirst, if_neg hc, List.length_cons]
      exact Nat.lt_succ_of_lt (ih hmem)

lemma length_dropWhile_le (p : Char → Bool) : ∀ l : Str,
    (l.dropWhile p).length ≤ l.length := by
  intro l
  induction l with
  | nil => simp [List.dropWhile]
  | cons c cs ih =>
    simp only [List.dropWhile]
    split
    · exact Nat.le_succ_of_le ih
    · exact Nat.le_refl _

lemma length_pyStrip_le (s : Str) : (pyStrip s).length ≤ s.length := by
  unfold pyStrip
  calc ((s.dropWhile isPySpace).reverse.dropWhile isPySpace).reverse.length
      = ((s.dropWhile isPySpace).reverse.dropWhile isPySpace).length := by
        rw [List.length_reverse]
    _ ≤ (s.dropWhile isPySpace).reverse.length := length_dropWhile_le _ _
    _ = (s.dropWhile isPySpace).length := by rw [List.length_reverse]
    _ ≤ s.length := length_dropWhile_le _ _

/-- Embedding of `smart_split_thai_text(text, max_chars_per_line)`:
newline passthrough, short-text early return, "Title: Subtitle" colon
heuristic (with recursion on the long subtitle part), then the
tokenize-and-pack general path. -/
def smart_split_thai_text (tok : Str → List Str) (text : Str) (maxChars : Int) :
    List Str :=
  if '\n' ∈ text then splitOnChar '\n' text
  else if (text.length : Int) ≤ maxChars then [text]
  else if hc : ':' ∈ text then
    if ((pyStrip (splitFirst ':' text).1).length : Int) ≤ maxChars ∧
        ((pyStrip (splitFirst ':' text).2).length : Int) ≤ maxChars then
      [pyStrip (splitFirst ':' text).1, pyStrip (splitFirst ':' text).2]
    else if ((pyStrip (splitFirst ':' text).1).length : Int) ≤ maxChars then
      pyStrip (splitFirst ':' text).1 ::
        smart_split_thai_text tok (pyStrip (splitFirst ':' text).2) maxChars
    else packCore tok text maxChars
  else packCore tok text maxChars
termination_by text.length
decreasing_by
  exact Nat.lt_of_le_of_lt (length_pyStrip_le _) (length_splitFirst_snd hc)

/-- The `while min_chars <= max_chars` binary-search loop of
`adaptive_split_thai_text`; `best` is the saved `chars_per_line`. -/
def binSearch (f : Int → Nat) (maxLines : Int) (lo hi best : Int) : Int :=
  if h : lo ≤ hi then
    if ((f ((lo + hi) / 2) : Int)) ≤ maxLines then
      binSearch f maxLines lo ((lo + hi) / 2 - 1) ((lo + hi) / 2)
    else
      binSearch f maxLines ((lo + hi) / 2 + 1) hi best
  else best
termination_by (hi + 1 - lo).toNat
decreasing_by
  · omega
  · omega

/-- Embedding of `adaptive_split_thai_text(text, max_lines)`: empty-input
guard, initial attempt at 30 chars/line, binary search of the budget over
`[10, 100]`, final pack with the last working budget, forced truncation. -/
def adaptive_split_thai_text (tok : Str → List Str) (text : Str)
    (maxLines : Int) : List Str :=
  if text = [] ∨ maxLines ≤ 0 then []
  else
    let lines := smart_split_thai_text tok text 30
    if (lines.length : Int) ≤ maxLines then lines
    else
      let best := binSearch (fun b => (smart_split_thai_text tok text b).length)
        maxLines 10 100 30
      let lines2 := smart_split_thai_text tok text best
      if maxLines < (lines2.length : Int) then lines2.take maxLines.toNat
      else lines2

/-- Python `int(x)` on a float/rational: truncation toward zero. -/
def pyInt (q : ℚ) : Int := if 0 ≤ q then ⌊q⌋ else ⌈q⌉

/-- Python list slicing `l[:k]` for an arbitrary integer `k`. -/
def pyTake {α : Type} (k : Int) (l : List α) : List α :=
  if 0 ≤ k then l.take k.toNat else l.take ((l.length : Int) + k).toNat

/-- Insertion step of a stable descending sort keyed by a rational score
(models Python `sorted(..., key=..., reverse=True)`, which is stable). -/
def insertByKeyDesc {α : Type} (key : α → ℚ) (a : α) : List α → List α
  | [] => [a]
  | b :: bs => if key b < key a then a :: b :: bs else b :: insertByKeyDesc key a bs

/-- Stable descending sort keyed by a rational score. -/
def sortByKeyDesc {α : Type} (key : α → ℚ) (l : List α) : List α :=
  l.foldr (insertByKeyDesc key) []

/-- The fixed Thai stop-word list of `find_important_words`. -/
def stopWords : List Str :=
  (["และ", "หรือ", "ของ", "ใน", "ที่", "เป็น", "ไม่", "มี", "ได้", "จะ",
    "กับ", "จาก", "โดย", "ถึง", "แต่", "ก็", "เพื่อ", "ต่อ", "กว่า", "เมื่อ",
    "ให้", "แล้ว", "ด้วย", "อยู่", "อย่าง", "ไป", "มา", "ยัง", "คือ", "นี้",
    "นั้น", "ๆ", "นะ", "ครับ", "ค่ะ", "น่า", "ช่วย", "เลย", "พอ", "ทำ"] :
    List String).map String.data

/-- `filtered_words = [w for w in words if w not in stop_words and len(w) > 1]`. -/
def filteredWordsOf (words : List Str) : List Str :=
  words.filter (fun w => !(stopWords.contains w) && decide (1 < w.length))

/-- `word_positions[w]`: the indices at which `w` occurs in the token stream
(positions are tracked only for words in `filtered_words`). -/
def wordPositions (words filtered : List Str) (w : Str) : List Nat :=
  if filtered.contains w then
    (List.range words.length).filter (fun i => words.getD i [] == w)
  else []

/-- `word_freq`: insertion-ordered frequency table over `filtered_words`. -/
def wordFreq (filtered : List Str) : List (Str × Nat) :=
  filtered.foldl
    (fun acc w =>
      if acc.any (fun p => p.1 == w) then
        acc.map (fun p => if p.1 == w then (p.1, p.2 + 1) else p)
      else acc ++ [(w, 1)])
    []

/-- `word_scores`: `freq * (0.5 + min(len(word), 10) / 10)` for words of
length at least 2 (float arithmetic modelled in ℚ). -/
def wordScores (wf : List (Str × Nat)) : List (Str × ℚ) :=
  wf.filterMap (fun p =>
    if 2 ≤ p.1.length then
      some (p.1, (p.2 : ℚ) * (1/2 + (min p.1.length 10 : ℚ) / 10))
    else none)

/-- Minimum `abs(pos1 - pos2)` over all position pairs; `none` plays the
role of Python's `float('inf')` when either list is empty. -/
def minPairDist (ps qs : List Nat) : Option Nat :=
  ((ps.map (fun p => qs.map (fun q => max p q - min p q))).flatten).min?

/-- `max_highlights`: `min(count, 2)`, further capped at 1 when fewer than
10 tokens survive stop-word filtering. -/
def maxHighlightsOf (count : Int) (filteredLen : Nat) : Int :=
  if filteredLen < 10 then min (min count 2) 1 else min count 2

/-- Embedding of `find_important_words(text, count)`: tokenize, filter
stop words, score by frequency and length, rank, then select at most one
proximity-coherent companion for the top word. -/
def find_important_words (tok : Str → List Str) (text : Str) (count : Int) :
    List Str :=
  let words := tok text
  let filtered := filteredWordsOf words
  let scores := wordScores (wordFreq filtered)
  let sortedWords := sortByKeyDesc Prod.snd scores
  let maxHighlights := maxHighlightsOf count filtered.length
  let candidates := (pyTake (maxHighlights * 2) sortedWords).map Prod.fst
  match candidates with
  | [] => []
  | first :: rest =>
    if 1 < maxHighlights ∧ rest ≠ [] then
      let firstPos := wordPositions words filtered first
      let prox := rest.filterMap (fun w =>
        if filtered.contains w then
          some (w,
            match minPairDist firstPos (wordPositions words filtered w) with
            | some d =>
              if d ≤ 5 then
                ((scores.lookup w).getD 0) * (1 + ((5 : ℚ) - d) * (2/10))
              else ((scores.lookup w).getD 0) * (1/2)
            | none => ((scores.lookup w).getD 0) * (1/2))
        else none)
      match sortByKeyDesc Prod.snd prox with
      | [] => [first]
      | p :: _ => [first, p.1]
    else [first]

/-- Embedding of `clean_title_text(text)`: remove colons and semicolons;
for Thai text, instead split at the first colon/semicolon and rejoin the
stripped parts with a space. -/
def clean_title_text (text : Str) : Str :=
  let cleaned := (text.filter (fun c => !(c == ':'))).filter (fun c => !(c == ';'))
  if containsThai text then
    let c1 :=
      if ':' ∈ text then
        pyStrip (splitFirst ':' text).1 ++ ' ' :: pyStrip (splitFirst ':' text).2
      else cleaned
    if ';' ∈ c1 then
      pyStrip (splitFirst ';' c1).1 ++ ' ' :: pyStrip (splitFirst ';' c1).2
    else c1
  else cleaned

/-- `min_required_padding` as computed by both `process_add_title` (video)
and `process_add_title_to_image`: total text height plus breathing padding
above and below (`line_spacing = int(font_size*0.3)`,
`extra_padding = int(font_size*padding_multiplier)`). -/
def minRequiredPadding (totalLines : Nat) (fontSize : Int) (mult : ℚ) : Int :=
  let lineSpacing := pyInt ((fontSize : ℚ) * (3/10))
  let totalTextHeight :=
    (totalLines : Int) * fontSize + ((totalLines : Int) - 1) * lineSpacing
  let extraPadding := pyInt ((fontSize : ℚ) * mult)
  totalTextHeight + extraPadding * 2

/-- The padding resolution of `process_add_title` (video path): the
overflow clamp to `original_height // 2` is nested inside the
raise-to-minimum branch. -/
def videoResolvedPadding (totalLines : Nat) (fontSize : Int) (mult : ℚ)
    (paddingTop originalHeight : Int) : Int :=
  let minReq := minRequiredPadding totalLines fontSize mult
  if paddingTop < minReq then
    if originalHeight - minReq ≤ 0 then originalHeight / 2 else minReq
  else paddingTop

/-- The padding resolution of `process_add_title_to_image` (image path):
raise to minimum, then unconditionally clamp to `original_height // 2`
whenever the padding would consume the whole image height. -/
def imageResolvedPadding (totalLines : Nat) (fontSize : Int) (mult : ℚ)
    (paddingBottom originalHeight : Int) : Int :=
  let minReq := minRequiredPadding totalLines fontSize mult
  let p := if paddingBottom < minReq then minReq else paddingBottom
  if originalHeight - p ≤ 0 then originalHeight / 2 else p

/-- The shrink-to-fit step of `process_add_title_to_image`: if the widest
measured line exceeds 90% of the image width, scale the font size by
`(width*0.9)/max_text_width` (text measurement modelled as a rational). -/
def shrinkFontSize (originalWidth : Int) (maxTextWidth : ℚ) (fontSize : Int) :
    Int :=
  if (originalWidth : ℚ) * (9/10) < maxTextWidth then
    pyInt ((fontSize : ℚ) * ((originalWidth : ℚ) * (9/10) / maxTextWidth))
  else fontSize

/-! ### Branch lemmas for `smart_split_thai_text` -/

lemma smart_split_newline (tok : Str → List Str) (text : Str) (maxChars : Int)
    (h : '\n' ∈ text) :
    smart_split_thai_text tok text maxChars = splitOnChar '\n' text := by
  rw [smart_split_thai_text, if_pos h]

lemma smart_split_short (tok : Str → List Str) (text : Str) (maxChars : Int)
    (h1 : '\n' ∉ text) (h2 : (text.length : Int) ≤ maxChars) :
    smart_split_thai_text tok text maxChars = [text] := by
  rw [smart_split_thai_text, if_neg h1, if_pos h2]

lemma smart_split_colon_both (tok : Str → List Str) (text : Str) (maxChars : Int)
    (h1 : '\n' ∉ text) (h2 : ¬ (text.length : Int) ≤ maxChars) (h3 : ':' ∈ text)
    (h4 : ((pyStrip (splitFirst ':' text).1).length : Int) ≤ maxChars)
    (h5 : ((pyStrip (splitFirst ':' text).2).length : Int) ≤ maxChars) :
    smart_split_thai_text tok text maxChars =
      [pyStrip (splitFirst ':' text).1, pyStrip (splitFirst ':' text).2] := by
  rw [smart_split_thai_text, if_neg h1, if_neg h2, dif_pos h3, if_pos ⟨h4, h5⟩]

lemma smart_split_pack (tok : Str → List Str) (text : Str) (maxChars : Int)
    (h1 : '\n' ∉ text) (h2 : ¬ (text.length : Int) ≤ maxChars) (h3 : ':' ∉ text) :
    smart_split_thai_text tok text maxChars = packCore tok text maxChars := by
  rw [smart_split_thai_text, if_neg h1, if_neg h2, dif_neg h3]

lemma smart_split_nil (tok : Str → List Str) (maxChars : Int)
    (h : 0 ≤ maxChars) : smart_split_thai_text tok [] maxChars = [[]] :=
  smart_split_short tok [] maxChars (by simp) (by simpa using h)

/-! ### Lemmas on the binary search and the greedy packer -/

lemma binSearch_of_never (f : Int → Nat) (maxLines : Int) :
    ∀ (n : Nat) (lo hi best : Int), (hi + 1 - lo).toNat = n →
      (∀ b : Int, lo ≤ b → b ≤ hi → maxLines < (f b : Int)) →
      binSearch f maxLines lo hi best = best := by
  intro n
  induction n using Nat.strong_induction_on with
  | _ n ih =>
    intro lo hi best hn hall
    rw [binSearch]
    split
    · next h =>
      have hmid1 : lo ≤ (lo + hi) / 2 := by omega
      have hmid2 : (lo + hi) / 2 ≤ hi := by omega
      rw [if_neg (not_le.mpr (hall _ hmid1 hmid2))]
      exact ih ((hi + 1 - ((lo + hi) / 2 + 1)).toNat) (by omega) _ _ _ rfl
        (fun b hb1 hb2 => hall b (by omega) hb2)
    · rfl

lemma greedyAux_start (b : Int) (th : Bool) (w1 : Str) (ws : List Str) :
    greedyAux b th [] (w1 :: ws) = greedyAux b th w1 ws := by
  rw [greedyAux]
  simp

lemma greedyAux_pair_overflow (b : Int) (th : Bool) (w1 w2 : Str)
    (h1 : w1 ≠ []) (h2 : w2 ≠ [])
    (hbig : ¬ (((w1 ++ (if th then ([] : Str) else [' ']) ++ w2).length : Int) ≤ b)) :
    greedyAux b th [] [w1, w2] = [w1, w2] := by
  rw [greedyAux_start, greedyAux, if_neg h1, if_neg hbig, if_neg h1, greedyAux,
    if_neg h2]

lemma greedyAux_pair_fit (b : Int) (th : Bool) (w1 w2 : Str) (h1 : w1 ≠ [])
    (hfit : ((w1 ++ (if th then ([] : Str) else [' ']) ++ w2).length : Int) ≤ b) :
    greedyAux b th [] [w1, w2] =
      [w1 ++ (if th then ([] : Str) else [' ']) ++ w2] := by
  rw [greedyAux_start, greedyAux, if_neg h1, if_pos hfit, greedyAux,
    if_neg (by simp [h1])]

/-! ### Claim C2: short text returns a single line -/

/-- Claim C2, counterexample: the claim "for every input text whose length
is ≤ the character budget, the packer returns exactly one line equal to the
input" fails for text containing a newline: `"a\nb"` (length 3 ≤ 30) is
split at the newline into two lines instead of being returned as one. -/
theorem smart_split_short_newline_cex :
    smart_split_thai_text (fun _ => []) ("a\nb".data) 30 = [['a'], ['b']] ∧
    [['a'], ['b']] ≠ [("a\nb".data)] := by
  constructor
  · rw [smart_split_newline _ _ _ (by decide)]
    decide
  · decide

/-- Claim C2, amended: for every input text that contains no newline and
whose length is ≤ the character budget, `smart_split_thai_text` returns
exactly one line equal to the input text. -/
theorem smart_split_short_single_line (tok : Str → List Str) (text : Str)
    (maxChars : Int) (h1 : '\n' ∉ text) (h2 : (text.length : Int) ≤ maxChars) :
    smart_split_thai_text tok text maxChars = [text] :=
  smart_split_short tok text maxChars h1 h2

/-- Witness for the amended claim C2 at `text = "Hello"`, budget 30. -/
theorem smart_split_short_single_line_witness :
    smart_split_thai_text (fun _ => []) ("Hello".data) 30 = [("Hello".data)] :=
  smart_split_short_single_line (fun _ => []) ("Hello".data) 30 (by decide)
    (by decide)

/-! ### Claim C3: the "Title: Subtitle" colon heuristic -/

/-- Claim C3, counterexample: on `"Title: Subtitle"` with budget 30 the
packer does NOT return `["Title", "Subtitle"]`: the text's length (15) is
within the budget, so the short-text early return fires first and the
whole text comes back as a single line. -/
theorem smart_split_colon_heuristic_cex :
    smart_split_thai_text (fun _ => []) ("Title: Subtitle".data) 30 =
      [("Title: Subtitle".data)] ∧
    [("Title: Subtitle".data)] ≠ ["Title".data, "Subtitle".data] := by
  constructor
  · exact smart_split_short (fun _ => []) _ 30 (by decide) (by decide)
  · decide

/-- Claim C3, amended: the colon heuristic applies only after the newline
and short-text checks: if the text has no newline, is longer than the
budget, contains a colon, and both the stripped pre-colon and post-colon
parts fit the budget, the packer returns exactly those two lines — for any
tokenizer, i.e. without invoking tokenization. -/
theorem smart_split_colon_two_lines (tok : Str → List Str) (text : Str)
    (maxChars : Int) (h1 : '\n' ∉ text) (h2 : ¬ (text.length : Int) ≤ maxChars)
    (h3 : ':' ∈ text)
    (h4 : ((pyStrip (splitFirst ':' text).1).length : Int) ≤ maxChars)
    (h5 : ((pyStrip (splitFirst ':' text).2).length : Int) ≤ maxChars) :
    smart_split_thai_text tok text maxChars =
      [pyStrip (splitFirst ':' text).1, pyStrip (splitFirst ':' text).2] :=
  smart_split_colon_both tok text maxChars h1 h2 h3 h4 h5

/-- Witness for the amended claim C3: `"Title: Subtitle"` with budget 14
(the text is longer than the budget, both parts fit) yields exactly
`["Title", "Subtitle"]`. -/
theorem smart_split_colon_two_lines_witness :
    smart_split_thai_text (fun _ => []) ("Title: Subtitle".data) 14 =
      ["Title".data, "Subtitle".data] := by
  have h := smart_split_colon_two_lines (fun _ => []) ("Title: Subtitle".data)
    14 (by decide) (by decide) (by decide) (by decide) (by decide)
  rw [h]
  decide

/-! ### Claim C6: degenerate inputs of the adaptive solver -/

/-- Claim C6: `adaptive_split_thai_text` returns the empty list whenever
`max_lines ≤ 0` (for any text) and whenever the text is empty (for any
`max_lines`). -/
theorem adaptive_split_degenerate (tok : Str → List Str) (text : Str)
    (n : Int) :
    (n ≤ 0 → adaptive_split_thai_text tok text n = []) ∧
    adaptive_split_thai_text tok [] n = [] := by
  constructor
  · intro h
    rw [adaptive_split_thai_text, if_pos (Or.inr h)]
  · rw [adaptive_split_thai_text, if_pos (Or.inl rfl)]

/-- Witness for claim C6 at `text = "ab"`, `max_lines = 0` and at the
empty text with `max_lines = 5`. -/
theorem adaptive_split_degenerate_witness :
    adaptive_split_thai_text (fun _ => []) ("ab".data) 0 = [] ∧
    adaptive_split_thai_text (fun _ => []) [] 5 = [] :=
  ⟨(adaptive_split_degenerate (fun _ => []) ("ab".data) 0).1 (by decide),
   (adaptive_split_degenerate (fun _ => []) [] 5).2⟩

/-! ### Claim C1: the adaptive solver respects the line bound -/

/-- Claim C1: for every tokenizer, text and `max_lines ≥ 1` the adaptive
solver returns at most `max_lines` lines; and when no character budget in
`[10, 100]` yields a packing within the constraint (the pathological
case), the result is exactly the 30-chars-per-line packing truncated to
its first `max_lines` entries, hence has length exactly `max_lines`. -/
theorem adaptive_split_respects_max_lines (tok : Str → List Str) (text : Str)
    (maxLines : Int) (h1 : 1 ≤ maxLines) :
    ((adaptive_split_thai_text tok text maxLines).length : Int) ≤ maxLines ∧
    ((∀ n ∈ List.range' 10 91,
        maxLines < ((smart_split_thai_text tok text (n : Int)).length : Int)) →
      adaptive_split_thai_text tok text maxLines =
        (smart_split_thai_text tok text 30).take maxLines.toNat ∧
      ((adaptive_split_thai_text tok text maxLines).length : Int) = maxLines) := by
  constructor
  · rw [adaptive_split_thai_text]
    split
    · simp
      omega
    · simp only []
      split
      · next h2 => exact h2
      · next h2 =>
        split
        · next h3 =>
          simp only [List.length_take]
          omega
        · next h3 => omega
  · intro hpath
    have h30 : maxLines < ((smart_split_thai_text tok text 30).length : Int) := by
      have h := hpath 30 (by simp [List.mem_range'_1])
      simpa using h
    have htext : ¬ (text = [] ∨ maxLines ≤ 0) := by
      rintro (he | he)
      · rw [he, smart_split_nil tok 30 (by omega)] at h30
        simp at h30
        omega
      · omega
    have hbs : binSearch
        (fun b => (smart_split_thai_text tok text b).length) maxLines 10 100 30
        = 30 := by
      apply binSearch_of_never _ _ ((100 + 1 - 10 : Int).toNat) _ _ _ rfl
      intro b hb1 hb2
      have hmem : b.toNat ∈ List.range' 10 91 := by
        simp only [List.mem_range'_1]
        omega
      have h := hpath b.toNat hmem
      rwa [Int.toNat_of_nonneg (by omega)] at h
    rw [adaptive_split_thai_text, if_neg htext]
    simp only [hbs]
    rw [if_neg (not_le.mpr h30), if_pos h30]
    refine ⟨rfl, ?_⟩
    simp only [List.length_take]
    omega

/-- A trivial tokenizer (never consulted on the non-Thai path). -/
def tokNone : Str → List Str := fun _ => []

/-- A pathological text for the adaptive solver: two space-separated Latin
words of lengths 51 and 50, so every budget in `[10, 100]` packs it into 2
lines while `max_lines = 1`. -/
def pathText : Str := List.replicate 51 'a' ++ ' ' :: List.replicate 50 'b'

lemma pathText_two_lines : ∀ b : Int, b ≤ 100 →
    smart_split_thai_text tokNone pathText b =
      [List.replicate 51 'a', List.replicate 50 'b'] := by
  intro b hb
  have hlen : (pathText.length : Int) = 102 := by decide
  rw [smart_split_pack tokNone pathText b (by decide) (by omega) (by decide)]
  have hth : containsThai pathText = false := by decide
  have hws : pySplitWs pathText = [List.replicate 51 'a', List.replicate 50 'b'] := by
    decide
  rw [packCore]
  simp only [hth, Bool.false_eq_true, if_false, hws]
  apply greedyAux_pair_overflow _ _ _ _ (by decide) (by decide)
  simp only [if_false, Bool.false_eq_true]
  intro hcon
  simp only [List.length_append, List.length_replicate, List.length_cons,
    List.length_nil] at hcon
  omega

/-- Witness for claim C1: on `pathText` with `max_lines = 1`, every budget
in `[10, 100]` produces 2 lines, and the solver returns exactly the first
line of the 30-budget packing. -/
theorem adaptive_split_respects_max_lines_witness :
    adaptive_split_thai_text tokNone pathText 1 =
      (smart_split_thai_text tokNone pathText 30).take (Int.toNat 1) ∧
    ((adaptive_split_thai_text tokNone pathText 1).length : Int) = 1 :=
  (adaptive_split_respects_max_lines tokNone pathText 1 (by decide)).2
    (by
      intro n hn
      have hn' := List.mem_range'_1.mp hn
      rw [pathText_two_lines (n : Int) (by omega)]
      decide)

/-! ### Claim C4: the join rule is per-text, not per-token -/

/-- Claim C4, counterexample: the joiner is NOT chosen from each token's
own script.  On a Thai text (11 Thai characters, so the whole text is
classified Thai) whose tokenizer emits the Latin tokens `"ab"` and `"cd"`,
the packer joins them with the empty string, not with the space that
per-token classification of the Latin tokens would demand. -/
theorem smart_split_join_per_text_cex :
    smart_split_thai_text (fun _ => [['a', 'b'], ['c', 'd']])
        (List.replicate 11 'ก') 10 = [['a', 'b', 'c', 'd']] ∧
    [['a', 'b', 'c', 'd']] ≠ [['a', 'b', ' ', 'c', 'd']] := by
  constructor
  · rw [smart_split_pack _ _ _ (by decide) (by decide) (by decide)]
    decide
  · decide

/-- Claim C4, amended: script classification is performed once per input
text (`containsThai text`), and that single flag — not the script of the
individual tokens — selects the joiner for every token: the packer runs
the greedy loop with the per-text flag, and with that flag the joiner
between two tokens on one line is `""` iff the flag is set, `" "`
otherwise, regardless of the tokens' content. -/
theorem smart_split_join_rule_per_text :
    (∀ (isthai : Bool) (b : Int) (w1 w2 : Str), w1 ≠ [] →
      ((w1 ++ (if isthai then ([] : Str) else [' ']) ++ w2).length : Int) ≤ b →
      greedyAux b isthai [] [w1, w2] =
        [w1 ++ (if isthai then ([] : Str) else [' ']) ++ w2]) ∧
    (∀ (tok : Str → List Str) (text : Str) (b : Int),
      '\n' ∉ text → ¬ (text.length : Int) ≤ b → ':' ∉ text →
      smart_split_thai_text tok text b =
        greedyAux b (containsThai text) []
          (if containsThai text then processPunct (tok text)
           else pySplitWs text)) := by
  constructor
  · intro isthai b w1 w2 h1 hfit
    exact greedyAux_pair_fit b isthai w1 w2 h1 hfit
  · intro tok text b h1 h2 h3
    rw [smart_split_pack tok text b h1 h2 h3, packCore]

/-- Witness for the amended claim C4: with the per-text flag unset, two
Latin tokens that fit are joined by a single space. -/
theorem smart_split_join_rule_per_text_witness :
    greedyAux 10 false [] [['a', 'b'], ['c', 'd']] =
      [['a', 'b', ' ', 'c', 'd']] := by
  have h := smart_split_join_rule_per_text.1 false 10 ['a', 'b'] ['c', 'd']
    (by decide) (by decide)
  exact h.trans (by decide)

/-! ### Claim C7: punctuation reattachment -/

lemma reattachAux_punct_tail (qs : List Str) : ∀ (cur : Str), cur ≠ [] →
    (∀ q ∈ qs, q ∈ punctSet) → reattachAux cur qs = [cur ++ qs.flatten] := by
  induction qs with
  | nil =>
    intro cur hcur _
    rw [reattachAux, if_neg hcur]
    simp
  | cons q qs ih =>
    intro cur hcur hqs
    rw [reattachAux, if_pos (hqs q (by simp)), if_neg hcur,
      ih (cur ++ q) (by simp [hcur]) (fun x hx => hqs x (by simp [hx]))]
    simp

lemma reattachAux_punct_head (ps : List Str) (ts : List Str)
    (hps : ∀ p ∈ ps, p ∈ punctSet) :
    reattachAux [] (ps ++ ts) = ps ++ reattachAux [] ts := by
  induction ps with
  | nil => simp
  | cons p ps ih =>
    simp only [List.cons_append]
    rw [reattachAux, if_pos (hps p (by simp)), if_pos rfl,
      ih (fun x hx => hps x (by simp [hx]))]

/-- Claim C7, counterexample: a punctuation token whose only predecessor
is another standalone punctuation token is NOT concatenated onto it: on
input `[",", "."]` the code emits both marks as separate tokens, while the
claim (which excepts only the very first token) demands `[",."]`. -/
theorem punct_reattach_leading_cex :
    processPunct [[','], ['.']] = [[','], ['.']] ∧
    [[','], ['.']] ≠ [[',', '.']] := by
  constructor
  · decide
  · decide

/-- Claim C7, amended: reattachment is an order-preserving fold in which a
punctuation token is concatenated (no separator) onto the pending word
buffer; punctuation tokens arriving before any (non-empty) word token —
not only a punctuation token in the very first position — are emitted
unchanged as their own tokens.  In particular a run of punctuation tokens
following a word all attach to it, and `["hello", ",", "world"]` yields
`["hello,", "world"]`. -/
theorem punct_reattach_fold :
    (∀ (ps : List Str) (w : Str) (qs : List Str),
      (∀ p ∈ ps, p ∈ punctSet) → w ∉ punctSet → w ≠ [] →
      (∀ q ∈ qs, q ∈ punctSet) →
      processPunct (ps ++ w :: qs) = ps ++ [w ++ qs.flatten]) ∧
    processPunct ["hello".data, ",".data, "world".data] =
      ["hello,".data, "world".data] := by
  constructor
  · intro ps w qs hps hw hwne hqs
    rw [processPunct, reattachAux_punct_head ps (w :: qs) hps, reattachAux,
      if_neg hw, if_pos rfl, reattachAux_punct_tail qs w hwne hqs]
  · decide

/-- Witness for the amended claim C7: a leading comma stays standalone
while the trailing period attaches to `"hello"`. -/
theorem punct_reattach_fold_witness :
    processPunct [[','], "hello".data, ['.']] = [[','], "hello.".data] := by
  have h := punct_reattach_fold.1 [[',']] ("hello".data) [['.']]
    (by decide) (by decide) (by decide) (by decide)
  exact h.trans (by decide)

/-! ### Claim C10: `clean_title_text` on non-Thai input -/

/-- Claim C10: on input containing no Thai code point, `clean_title_text`
returns the input with every `':'` and `';'` removed and nothing else
changed; consequently its output contains no colon, so the packer's
"Title: Subtitle" colon heuristic cannot fire on it. -/
theorem clean_title_removes_colons (text : Str)
    (h : containsThai text = false) :
    clean_title_text text =
      text.filter (fun c => !(c == ':') && !(c == ';')) ∧
    ':' ∉ clean_title_text text := by
  have heq : clean_title_text text =
      (text.filter (fun c => !(c == ':'))).filter (fun c => !(c == ';')) := by
    rw [clean_title_text]
    simp [h]
  constructor
  · rw [heq, List.filter_filter]
    apply List.filter_congr
    intro c _
    rw [Bool.and_comm]
  · rw [heq]
    simp [List.mem_filter]

/-- Witness for claim C10 at the Latin text `"ab:cd;e"`. -/
theorem clean_title_removes_colons_witness :
    clean_title_text ("ab:cd;e".data) =
      ("ab:cd;e".data).filter (fun c => !(c == ':') && !(c == ';')) ∧
    ':' ∉ clean_title_text ("ab:cd;e".data) :=
  clean_title_removes_colons ("ab:cd;e".data) (by decide)

/-! ### Claim C5: padding raise and clamp -/

lemma minRequiredPadding_example : minRequiredPadding 1 50 (1/2) = 100 := by
  norm_num [minRequiredPadding, pyInt]

/-- Claim C5, counterexample: on the video path the overflow clamp is
nested inside the raise-to-minimum branch, so a caller padding that
already meets the minimum is used unchanged even when it exceeds the
whole media height: with one 50px line, multiplier 0.5 (minimum 100),
caller padding 2000 and video height 1000, the resolved padding is 2000,
which is not less than the media dimension. -/
theorem video_padding_clamp_cex :
    videoResolvedPadding 1 50 (1/2) 2000 1000 = 2000 ∧
    ¬ videoResolvedPadding 1 50 (1/2) 2000 1000 < 1000 := by
  have h2000 : videoResolvedPadding 1 50 (1/2) 2000 1000 = 2000 := by
    rw [videoResolvedPadding]
    simp only [minRequiredPadding_example]
    decide
  exact ⟨h2000, by rw [h2000]; decide⟩

/-- Claim C5, amended: on both paths a caller padding below the computed
minimum is raised to exactly that minimum; the clamp to half the media
dimension applies unconditionally on the image path but only inside the
raise branch on the video path (a caller padding at or above the minimum
is used unchanged there, even when it consumes the whole height); and on
the image path, whenever the minimum is at least 1 and the media dimension
at least 2, the resolved padding is strictly positive and strictly below
the media dimension. -/
theorem padding_resolution_amended (L : Nat) (f : Int) (m : ℚ)
    (pad h : Int) :
    (pad < minRequiredPadding L f m →
      videoResolvedPadding L f m pad h =
        (if h - minRequiredPadding L f m ≤ 0 then h / 2
         else minRequiredPadding L f m)) ∧
    (minRequiredPadding L f m ≤ pad →
      videoResolvedPadding L f m pad h = pad) ∧
    (pad < minRequiredPadding L f m →
      imageResolvedPadding L f m pad h =
        (if h - minRequiredPadding L f m ≤ 0 then h / 2
         else minRequiredPadding L f m)) ∧
    (minRequiredPadding L f m ≤ pad →
      imageResolvedPadding L f m pad h =
        (if h - pad ≤ 0 then h / 2 else pad)) ∧
    (1 ≤ minRequiredPadding L f m → 2 ≤ h →
      0 < imageResolvedPadding L f m pad h ∧
        imageResolvedPadding L f m pad h < h) := by
  rw [videoResolvedPadding, imageResolvedPadding]
  generalize minRequiredPadding L f m = mr
  refine ⟨?_, ?_, ?_, ?_, ?_⟩ <;> intros <;> split_ifs <;>
    first
      | rfl
      | omega

/-- Witness for the amended claim C5: caller padding 10 below the minimum
100 with height 1000 resolves to exactly 100 on the video path, and the
image path's resolved padding lies strictly between 0 and the height. -/
theorem padding_resolution_amended_witness :
    videoResolvedPadding 1 50 (1/2) 10 1000 = 100 ∧
    (0 < imageResolvedPadding 1 50 (1/2) 10 1000 ∧
      imageResolvedPadding 1 50 (1/2) 10 1000 < 1000) := by
  have h := padding_resolution_amended 1 50 (1/2) 10 1000
  refine ⟨?_, h.2.2.2.2 (by rw [minRequiredPadding_example]; decide) (by decide)⟩
  have h1 := h.1 (by rw [minRequiredPadding_example]; decide)
  rw [h1, minRequiredPadding_example]
  decide

/-! ### Claim C9: shrink-to-fit font scaling -/

/-- Claim C9: when the widest measured line exceeds 90% of the surface
width (and the width is positive and the font size non-negative), the new
font size is exactly `⌊font_size * (width * 0.9 / max_text_width)⌋`, and
this step never increases the font size. -/
theorem shrink_font_size_floor (W : Int) (w : ℚ) (f : Int) (hW : 0 < W)
    (hw : (W : ℚ) * (9/10) < w) (hf : 0 ≤ f) :
    shrinkFontSize W w f = ⌊(f : ℚ) * ((W : ℚ) * (9/10) / w)⌋ ∧
    shrinkFontSize W w f ≤ f := by
  have h09 : (0 : ℚ) < (W : ℚ) * (9/10) := by
    have hW' : (0 : ℚ) < (W : ℚ) := by exact_mod_cast hW
    nlinarith
  have hwpos : (0 : ℚ) < w := lt_trans h09 hw
  have hscale : (W : ℚ) * (9/10) / w < 1 := (div_lt_one hwpos).mpr hw
  have hscalepos : 0 < (W : ℚ) * (9/10) / w := div_pos h09 hwpos
  have hf' : (0 : ℚ) ≤ (f : ℚ) := by exact_mod_cast hf
  have harg : 0 ≤ (f : ℚ) * ((W : ℚ) * (9/10) / w) :=
    mul_nonneg hf' hscalepos.le
  have heq : shrinkFontSize W w f = ⌊(f : ℚ) * ((W : ℚ) * (9/10) / w)⌋ := by
    rw [shrinkFontSize, if_pos hw, pyInt, if_pos harg]
  refine ⟨heq, ?_⟩
  rw [heq]
  calc ⌊(f : ℚ) * ((W : ℚ) * (9/10) / w)⌋
      ≤ ⌊(f : ℚ)⌋ :=
        Int.floor_le_floor (mul_le_of_le_one_right hf' hscale.le)
    _ = f := Int.floor_intCast f

/-- Witness for claim C9 at the spec's scenario: width 1000, widest line
950, font 64; the shrink factor is `900/950` and the result (60) does not
exceed 64. -/
theorem shrink_font_size_floor_witness :
    shrinkFontSize 1000 950 64 = ⌊(64 : ℚ) * ((1000 : ℚ) * (9/10) / 950)⌋ ∧
    shrinkFontSize 1000 950 64 ≤ 64 :=
  shrink_font_size_floor 1000 950 64 (by decide) (by norm_num) (by decide)

/-! ### Claim C8: size bound of the importance ranker -/

/-- Claim C8: for every tokenizer, text and requested count, the
importance ranker returns at most 2 words, and at most 1 word whenever
fewer than 10 tokens remain after stop-word and length filtering. -/
theorem find_important_words_bound (tok : Str → List Str) (text : Str)
    (count : Int) :
    (find_important_words tok text count).length ≤ 2 ∧
    ((filteredWordsOf (tok text)).length < 10 →
      (find_important_words tok text count).length ≤ 1) := by
  constructor
  · rw [find_important_words]
    split
    · simp
    · split
      · dsimp only
        split
        · simp
        · simp
      · simp
  · intro hlt
    rw [find_important_words]
    split
    · simp
    · rw [if_neg ?_]
      · simp
      · rintro ⟨hgt, -⟩
        rw [maxHighlightsOf, if_pos hlt] at hgt
        omega

/-- A fixed three-token tokenizer used as a witness input. -/
def tokThree : Str → List Str := fun _ => ["abc".data, "abc".data, "de".data]

/-- Witness for claim C8: three filtered tokens (< 10), so the ranker
returns at most one word. -/
theorem find_important_words_bound_witness :
    (find_important_words tokThree ['x'] 5).length ≤ 2 ∧
    (find_important_words tokThree ['x'] 5).length ≤ 1 :=
  ⟨(find_important_words_bound tokThree ['x'] 5).1,
   (find_important_words_bound tokThree ['x'] 5).2 (by decide)⟩

end NcaTitle
